import Mathlib

/-
Verification development for the OneWealth portfolio dashboard.

Shallow embedding of the numeric logic of:
  * src/lib/api/client.ts           (parsePortfolioCSV row loop, generateSummary)
  * src/components/analysis/allocation-analysis.tsx
                                    (calculateConcentration, allocation metrics,
                                     diversification metric card)
  * src/components PortfolioAlerts  (filter + slice display of score alerts)
  * the scoring engine contract     (backend/services/scoring.py is not part of
                                     this tree; it is modelled from the design
                                     document, see the ScoreComputer section)

Monetary amounts and percentages are modelled as exact rationals; JavaScript
number arithmetic on these code paths is plain field arithmetic, and the
properties proved here are the exact-arithmetic statements of the spec.
-/

namespace OneWealth

/-! ### Data model: CSV import (src/lib/api/client.ts) -/

/-- A position parsed from one CSV row, the ParsedPosition shape of
src/lib/api/client.ts. -/
structure ParsedPosition where
  date : String
  provider : String
  asset_class : String
  instrument_name : String
  isin : Option String
  region : String
  currency : String
  current_value : ℚ
  deriving DecidableEq

/-- A raw CSV row after PapaParse and parseFloat: the string fields, and the
numeric result of parseFloat on the current_value column, where none models
NaN (an unparsable number). String-to-number parsing itself is environmental
(PapaParse plus the JS runtime) and is taken as input. -/
structure RawRow where
  date : String
  provider : String
  asset_class : String
  instrument_name : String
  isin : Option String
  region : String
  currency : String
  current_value : Option ℚ
  deriving DecidableEq

/-- The ParseError shape of src/lib/types/portfolio.ts. -/
structure ParseError where
  row : ℕ
  field : String
  message : String
  deriving DecidableEq

/-- The position built by the row loop of parsePortfolioCSV from a row whose
current_value parsed to the number v. -/
def toParsedPosition (r : RawRow) (v : ℚ) : ParsedPosition :=
  { date := r.date
    provider := r.provider
    asset_class := r.asset_class
    instrument_name := r.instrument_name
    isin := r.isin
    region := r.region
    currency := r.currency
    current_value := v }

/-- The per-row loop of parsePortfolioCSV (src/lib/api/client.ts): for each row,
if parseFloat gave NaN, push a ParseError naming the current_value field at
CSV line index + 2; otherwise push the parsed position. Returns the positions
and the errors, each in row order. The first argument is the index of the
first row in the list. -/
def processRows : ℕ → List RawRow → List ParsedPosition × List ParseError
  | _, [] => ([], [])
  | i, r :: rs =>
    let rest := processRows (i + 1) rs
    match r.current_value with
    | none => (rest.1, { row := i + 2, field := "current_value", message := "Valeur invalide" } :: rest.2)
    | some v => (toParsedPosition r v :: rest.1, rest.2)

/-! ### generateSummary (src/lib/api/client.ts) -/

/-- A string-keyed record of numbers, as built by the JS pattern
rec[k] = (rec[k] || 0) + v. Insertion order of keys is preserved, as JS
string-keyed objects do. -/
def upsert (k : String) (v : ℚ) : List (String × ℚ) → List (String × ℚ)
  | [] => [(k, v)]
  | (k2, v2) :: t => if k2 = k then (k2, v2 + v) :: t else (k2, v2) :: upsert k v t

/-- One grouping pass of generateSummary: fold the positions, adding each
current_value into the bucket selected by the key function. -/
def aggregateBy (key : ParsedPosition → String) (positions : List ParsedPosition) :
    List (String × ℚ) :=
  positions.foldl (fun acc p => upsert (key p) p.current_value acc) []

/-- Total of the values held in a string-keyed record. -/
def sumValues (l : List (String × ℚ)) : ℚ := (l.map Prod.snd).sum

/-- Ascending date order on record entries, the comparator
a.date.localeCompare(b.date) of generateSummary; for the ISO YYYY-MM-DD date
strings this collation is lexicographic string order. -/
def dateLe (a b : String × ℚ) : Prop := a.1 ≤ b.1

instance : DecidableRel dateLe := fun a b => inferInstanceAs (Decidable (a.1 ≤ b.1))

instance : IsTotal (String × ℚ) dateLe := ⟨fun a b => le_total a.1 b.1⟩

instance : IsTrans (String × ℚ) dateLe := ⟨fun _ _ _ h h2 => le_trans h h2⟩

/-- The PortfolioSummary shape of src/lib/types/portfolio.ts, with the
string-keyed records as insertion-ordered entry lists and the time series as
a list of (date, value) entries. -/
structure PortfolioSummary where
  totalValue : ℚ
  byProvider : List (String × ℚ)
  byAssetClass : List (String × ℚ)
  byRegion : List (String × ℚ)
  timeSeriesData : List (String × ℚ)

/-- generateSummary (src/lib/api/client.ts): one pass accumulating the total
and the four groupings, then the by-date record turned into a date-sorted
time series. -/
def generateSummary (positions : List ParsedPosition) : PortfolioSummary :=
  { totalValue := positions.foldl (fun acc p => acc + p.current_value) 0
    byProvider := aggregateBy (fun p => p.provider) positions
    byAssetClass := aggregateBy (fun p => p.asset_class) positions
    byRegion := aggregateBy (fun p => p.region) positions
    timeSeriesData := List.insertionSort dateLe (aggregateBy (fun p => p.date) positions) }

/-- Outcome of parsePortfolioCSV after the row loop: failure when no valid
position was found, otherwise the positions, their summary and the per-row
errors. -/
inductive ParseOutcome where
  | failure (errors : List ParseError)
  | success (data : List ParsedPosition) (summary : PortfolioSummary) (errors : List ParseError)

/-- The tail of parsePortfolioCSV: run the row loop, fail when no position
parsed (appending the file-level error as the source pushes it), otherwise
generate the summary and resolve successfully, keeping the per-row errors. -/
def parsePortfolioRows (rows : List RawRow) : ParseOutcome :=
  let parsed := processRows 0 rows
  if parsed.1.isEmpty then
    ParseOutcome.failure (parsed.2 ++ [{ row := 0, field := "file", message := "Aucune position valide" }])
  else
    ParseOutcome.success parsed.1 (generateSummary parsed.1) parsed.2

/-! ### AllocationAnalysis (src/components/analysis/allocation-analysis.tsx) -/

/-- The slice of PortfolioPosition that the AllocationAnalysis numeric
computations read; the remaining fields (names, tags, timestamps) are
display-only there. -/
structure PortfolioPosition where
  current_value : ℚ
  deriving DecidableEq

/-- Sum of the current values of a position list; the totalValue prop handed
to AllocationAnalysis is summary.totalValue, the sum of all positions. -/
def valuesTotal (positions : List PortfolioPosition) : ℚ :=
  (positions.map (·.current_value)).sum

/-- The herfindahl accumulator of calculateConcentration: reduce over the
positions of share * share with share = current_value / totalValue. -/
def herfindahl (positions : List PortfolioPosition) (totalValue : ℚ) : ℚ :=
  positions.foldl
    (fun sum p => sum + (p.current_value / totalValue) * (p.current_value / totalValue)) 0

/-- The per-position weights value / totalValue, the share and percentage
computations of AllocationAnalysis. -/
def positionWeights (positions : List PortfolioPosition) (totalValue : ℚ) : List ℚ :=
  positions.map (fun p => p.current_value / totalValue)

/-- The diversification metric card of AllocationAnalysis: 85 when more than
20 positions, 70 when more than 10, else 50. -/
def diversificationMetric (positions : List PortfolioPosition) : ℕ :=
  if positions.length > 20 then 85 else if positions.length > 10 then 70 else 50

/-- Division that records a division by zero: none exactly when the divisor
is zero. Used to check the unguarded JS divisions of AllocationAnalysis. -/
def div? (a b : ℚ) : Option ℚ := if b = 0 then none else some (a / b)

/-- calculateConcentration with every division by totalValue checked: the
reduce performs one division per position, so the empty list performs none. -/
def herfindahlChecked (positions : List PortfolioPosition) (totalValue : ℚ) : Option ℚ :=
  positions.foldlM
    (fun sum p => (div? p.current_value totalValue).map (fun share => sum + share * share)) 0

/-- Math.max over a nonempty list of values; none for the empty spread, where
Math.max yields negative infinity. -/
def maxValue? : List ℚ → Option ℚ
  | [] => none
  | x :: xs => some (xs.foldl max x)

/-- The AllocationAnalysis metric block with its divisions checked, in source
order: the Herfindahl reduce, avgPositionSize = totalValue / numPositions,
largestPosition = Math.max of the values, and
largestPositionPct = largestPosition / totalValue * 100. -/
def allocationMetricsChecked (positions : List PortfolioPosition) (totalValue : ℚ) :
    Option (ℚ × ℚ × ℚ × ℚ) := do
  let h ← herfindahlChecked positions totalValue
  let avg ← div? totalValue (positions.length : ℚ)
  let largest ← maxValue? (positions.map (·.current_value))
  let largestPct ← (div? largest totalValue).map (· * 100)
  pure (h, avg, largest, largestPct)

/-! ### Alert display (PortfolioAlerts components) -/

/-- Alert severity, src/lib/types/portfolio.ts. -/
inductive AlertSeverity where
  | red
  | orange
  | green
  deriving DecidableEq

/-- The Alert shape of src/lib/types/portfolio.ts. -/
structure Alert where
  code : String
  severity : AlertSeverity
  message : String
  recommendation : Option String
  deriving DecidableEq

/-- The display selection of PortfolioAlerts: keep the alerts whose severity
is red or orange, in engine order, and take the first three. -/
def importantAlerts (alerts : List Alert) : List Alert :=
  (alerts.filter (fun a => a.severity == AlertSeverity.red || a.severity == AlertSeverity.orange)).take 3

/-! ### ScoreComputer, modelled from the spec

Modelled from the spec: backend/services/scoring.py, the scoring engine
called through GET /api/portfolios/id/score, is not part of this tree; only
its result types, callers and design document are. The definitions below
follow the design document (aggregate pre-computation, the four sub-scores,
the weighted global score, the alert rule table, and the zero-total short
circuit) with its documented example constants. -/

/-- Investor profile label, a fixed enumeration. -/
inductive ProfileLabel where
  | cautious
  | balanced
  | dynamic
  | aggressive
  deriving DecidableEq

/-- Modelled from the spec: the InvestorProfile input of the engine. -/
structure InvestorProfile where
  label : ProfileLabel
  targetEquityPct : ℚ
  deriving DecidableEq

/-- Modelled from the spec: the Position input of the engine, with optional
fields already parsed. -/
structure Position where
  value : ℚ
  assetClass : String
  region : String
  sector : Option String
  currencyExposure : Option String
  performance1y : Option ℚ
  volatility1y : Option ℚ
  deriving DecidableEq

/-- Sub-score entry of the score result. -/
structure SubScore where
  name : String
  value : ℚ
  description : String
  deriving DecidableEq

/-- Modelled from the spec: the ScoreResult output of the engine. The global
score is an integer by construction. -/
structure ScoreResult where
  globalScore : ℤ
  subScores : List SubScore
  alerts : List Alert
  actualEquityPct : ℚ
  concentrationTop5 : ℚ
  deriving DecidableEq

/-- Clamp a derived metric to the 0 to 100 band. -/
def clampQ (x : ℚ) : ℚ := max 0 (min 100 x)

/-- Documented default assumed volatility for positions without data. -/
def defaultVolatility : ℚ := 15

/-- Total portfolio value, the first aggregate. -/
def totalValueOf (positions : List Position) : ℚ := (positions.map (·.value)).sum

/-- Herfindahl index: sum of squared weights. -/
def herfindahlIndex (positions : List Position) (t : ℚ) : ℚ :=
  (positions.map (fun p => (p.value / t) * (p.value / t))).sum

/-- Share of the five largest positions. -/
def top5Share (positions : List Position) (t : ℚ) : ℚ :=
  ((List.insertionSort (fun a b : ℚ => b ≤ a) (positions.map (·.value))).take 5).sum / t

instance : DecidableRel (fun a b : ℚ => b ≤ a) := fun a b => inferInstanceAs (Decidable (b ≤ a))

/-- Distinct named sectors, counting unclassified as one extra bucket only
when some position lacks a sector. -/
def sectorCounts (positions : List Position) : ℕ :=
  ((positions.filterMap (·.sector)).dedup).length +
    (if positions.any (fun p => p.sector.isNone) then 1 else 0)

/-- Equity weight of the portfolio. -/
def equityWeight (positions : List Position) (t : ℚ) : ℚ :=
  (((positions.filter (fun p => p.assetClass == "equity")).map (·.value)).sum) / t

/-- Weight held in a given currency tag. -/
def currencyShare (positions : List Position) (t : ℚ) (c : String) : ℚ :=
  (((positions.filter (fun p => p.currencyExposure == some c)).map (·.value)).sum) / t

/-- Weight held in a given named sector. -/
def sectorShare (positions : List Position) (t : ℚ) (s : String) : ℚ :=
  (((positions.filter (fun p => p.sector == some s)).map (·.value)).sum) / t

/-- Value-weighted one-year performance, missing data defaulting to zero. -/
def weightedPerf (positions : List Position) (t : ℚ) : ℚ :=
  (positions.map (fun p => (p.value / t) * (p.performance1y.getD 0))).sum

/-- Value-weighted one-year volatility, missing data defaulting to the
documented assumed volatility. -/
def weightedVol (positions : List Position) (t : ℚ) : ℚ :=
  (positions.map (fun p => (p.value / t) * (p.volatility1y.getD defaultVolatility))).sum

/-- Diversification sub-score: piecewise decreasing mapping of the Herfindahl
index (100 below 0.10, linear 100 to 60 on the next band, 60 to 30 on the
next, then linear decay to 0 at 1), a 20 point penalty below 3 sectors, and a
final clamp. -/
def diversificationScore (h : ℚ) (sectors : ℕ) : ℚ :=
  let base : ℚ :=
    if h < 1/10 then 100
    else if h < 2/10 then 100 - 400 * (h - 1/10)
    else if h < 3/10 then 60 - 300 * (h - 2/10)
    else 30 - 30 * ((h - 3/10) / (7/10))
  clampQ (if sectors < 3 then base - 20 else base)

/-- Profile adequacy sub-score from the absolute equity delta: the documented
band table, decreasing below 20 past the last band and floored at 0. -/
def profileAdequacyScore (delta : ℚ) : ℚ :=
  if delta ≤ 5 then 100
  else if delta ≤ 10 then 80
  else if delta ≤ 15 then 60
  else if delta ≤ 20 then 40
  else max 0 (20 - (delta - 20))

/-- Macro exposure sub-score: start at 100, stack the USD, Technology and
cautious-profile penalties, clamp at the end. -/
def macroExposureScore (usdPct techPct : ℚ) (label : ProfileLabel)
    (actualEquityPct targetEquityPct : ℚ) : ℚ :=
  let usdPen : ℚ := if usdPct > 80 then 40 else if usdPct > 70 then 20 else 0
  let techPen : ℚ := if techPct > 50 then 30 else if techPct > 40 then 15 else 0
  let cautiousPen : ℚ :=
    if label = ProfileLabel.cautious ∧ actualEquityPct > targetEquityPct + 30 then 20 else 0
  clampQ (100 - usdPen - techPen - cautiousPen)

/-- Performance normalization: -20 maps to 0, 0 to 50, +20 to 100, clamped. -/
def normPerf (p : ℚ) : ℚ := clampQ (50 + (5/2) * p)

/-- Volatility normalization: 0 maps to 0, 40 to 100, clamped. -/
def normVol (v : ℚ) : ℚ := clampQ ((5/2) * v)

/-- Asset quality sub-score: 0.6 of normalized performance plus 0.4 of the
complement of normalized volatility, clamped. -/
def assetQualityScore (wp wv : ℚ) : ℚ :=
  clampQ ((6/10) * normPerf wp + (4/10) * (100 - normVol wv))

/-- A threshold-band alert rule: red above the red threshold, orange above
the orange threshold, silent otherwise. -/
def bandAlert (code : String) (metric redThr orangeThr : ℚ) (msg rec : String) : Option Alert :=
  if metric > redThr then some { code := code, severity := AlertSeverity.red, message := msg, recommendation := some rec }
  else if metric > orangeThr then some { code := code, severity := AlertSeverity.orange, message := msg, recommendation := some rec }
  else none

/-- A below-threshold alert rule for counts and scores that are bad when
low: red strictly below the red threshold, orange strictly below the orange
threshold. -/
def lowBandAlert (code : String) (metric redThr orangeThr : ℚ) (msg rec : String) : Option Alert :=
  if metric < redThr then some { code := code, severity := AlertSeverity.red, message := msg, recommendation := some rec }
  else if metric < orangeThr then some { code := code, severity := AlertSeverity.orange, message := msg, recommendation := some rec }
  else none

/-- The ordered alert rule table; the all-clear green alert is emitted only
when no rule triggered. -/
def computeAlerts (top5Pct h : ℚ) (sectors : ℕ) (delta usdPct techPct wv quality : ℚ) :
    List Alert :=
  let triggered : List Alert :=
    [bandAlert "HIGH_CONCENTRATION" top5Pct 60 50 "Top 5 concentration" "Reduce the largest holdings",
     bandAlert "LOW_DIVERSIFICATION" h (3/10) (2/10) "Herfindahl index" "Spread the allocation",
     lowBandAlert "LOW_SECTOR_DIVERSIFICATION" (sectors : ℚ) 2 3 "Sector count" "Add sectors",
     bandAlert "RISK_PROFILE_MISMATCH" delta 20 15 "Equity delta" "Realign with the target",
     bandAlert "HIGH_USD_EXPOSURE" usdPct 80 70 "USD exposure" "Reduce USD exposure",
     bandAlert "HIGH_TECH_EXPOSURE" techPct 50 40 "Technology exposure" "Reduce Technology exposure",
     bandAlert "HIGH_VOLATILITY" wv 30 25 "Weighted volatility" "Reduce volatile holdings",
     lowBandAlert "LOW_QUALITY_ASSETS" quality 30 50 "Quality sub-score" "Improve holding quality"].filterMap id
  if triggered.isEmpty then
    [{ code := "OK_PROFILE", severity := AlertSeverity.green, message := "All checks passing", recommendation := none }]
  else triggered

/-- The single informational alert of the empty-portfolio short circuit. -/
def emptyPortfolioAlert : Alert :=
  { code := "EMPTY_PORTFOLIO", severity := AlertSeverity.green,
    message := "The portfolio is empty", recommendation := none }

/-- Modelled from the spec: computeScore, the one operation of the engine.
Zero total value short-circuits to the documented degenerate result; the
main path derives the aggregates once, computes the four sub-scores, the
weighted global score rounded to an integer, and the alert list. -/
def computeScore (positions : List Position) (profile : InvestorProfile) : ScoreResult :=
  let t := totalValueOf positions
  if t = 0 then
    { globalScore := 0
      subScores :=
        [{ name := "Diversification", value := 0, description := "Portfolio is empty" },
         { name := "Profile adequacy", value := 0, description := "Portfolio is empty" },
         { name := "Macro exposure", value := 0, description := "Portfolio is empty" },
         { name := "Asset quality", value := 0, description := "Portfolio is empty" }]
      alerts := [emptyPortfolioAlert]
      actualEquityPct := 0
      concentrationTop5 := 0 }
  else
    let h := herfindahlIndex positions t
    let sectors := sectorCounts positions
    let actualEq := equityWeight positions t * 100
    let delta := |actualEq - profile.targetEquityPct|
    let usdPct := currencyShare positions t "USD" * 100
    let techPct := sectorShare positions t "Technology" * 100
    let wp := weightedPerf positions t
    let wv := weightedVol positions t
    let d := diversificationScore h sectors
    let pa := profileAdequacyScore delta
    let mx := macroExposureScore usdPct techPct profile.label actualEq profile.targetEquityPct
    let aq := assetQualityScore wp wv
    let g := (1/4 : ℚ) * d + (3/10) * pa + (1/5) * mx + (1/4) * aq
    let top5 := top5Share positions t
    { globalScore := round g
      subScores :=
        [{ name := "Diversification", value := d, description := "Concentration and sector spread" },
         { name := "Profile adequacy", value := pa, description := "Equity delta to target" },
         { name := "Macro exposure", value := mx, description := "Currency and sector exposure" },
         { name := "Asset quality", value := aq, description := "Performance and volatility" }]
      alerts := computeAlerts (top5 * 100) h sectors delta usdPct techPct wv aq
      actualEquityPct := actualEq
      concentrationTop5 := top5 * 100 }

/-! ### Helper lemmas -/

lemma foldl_add_eq {α : Type} (f : α → ℚ) :
    ∀ (l : List α) (a : ℚ), l.foldl (fun s x => s + f x) a = a + (l.map f).sum
  | [], a => by simp
  | x :: xs, a => by
    simp only [List.foldl_cons, List.map_cons, List.sum_cons]
    rw [foldl_add_eq f xs (a + f x)]
    ring

lemma sumValues_upsert (k : String) (v : ℚ) :
    ∀ l, sumValues (upsert k v l) = sumValues l + v
  | [] => by simp [upsert, sumValues]
  | (k2, v2) :: t => by
    by_cases h : k2 = k
    · simp only [upsert, if_pos h, sumValues, List.map_cons, List.sum_cons]
      ring
    · simp only [upsert, if_neg h, sumValues, List.map_cons, List.sum_cons]
      have := sumValues_upsert k v t
      simp only [sumValues] at this
      rw [this]
      ring

lemma sumValues_foldl_upsert (key : ParsedPosition → String) :
    ∀ (l : List ParsedPosition) (acc : List (String × ℚ)),
      sumValues (l.foldl (fun acc p => upsert (key p) p.current_value acc) acc)
        = sumValues acc + (l.map (·.current_value)).sum
  | [], acc => by simp
  | p :: ps, acc => by
    simp only [List.foldl_cons, List.map_cons, List.sum_cons]
    rw [sumValues_foldl_upsert key ps (upsert (key p) p.current_value acc),
      sumValues_upsert]
    ring

lemma sumValues_aggregateBy (key : ParsedPosition → String) (ps : List ParsedPosition) :
    sumValues (aggregateBy key ps) = (ps.map (·.current_value)).sum := by
  have := sumValues_foldl_upsert key ps []
  simpa [aggregateBy, sumValues] using this

lemma sum_map_div : ∀ (l : List ℚ) (t : ℚ), (l.map (· / t)).sum = l.sum / t
  | [], t => by simp
  | x :: xs, t => by
    simp only [List.map_cons, List.sum_cons, sum_map_div xs t]
    rw [add_div]

lemma sum_sq_le_sq_sum : ∀ (l : List ℚ), (∀ x ∈ l, 0 ≤ x) →
    (l.map (fun x => x * x)).sum ≤ l.sum * l.sum
  | [], _ => by simp
  | x :: xs, h => by
    simp only [List.map_cons, List.sum_cons]
    have hx : 0 ≤ x := h x (List.mem_cons_self x xs)
    have hxs : ∀ y ∈ xs, 0 ≤ y := fun y hy => h y (List.mem_cons_of_mem x hy)
    have hs : 0 ≤ xs.sum := List.sum_nonneg hxs
    have ih := sum_sq_le_sq_sum xs hxs
    nlinarith [mul_nonneg hx hs]

lemma exists_pos_of_sum_pos : ∀ (l : List ℚ), 0 < l.sum → ∃ x ∈ l, 0 < x
  | [], h => by simp at h
  | x :: xs, h => by
    by_cases hx : 0 < x
    · exact ⟨x, List.mem_cons_self x xs, hx⟩
    · simp only [List.sum_cons] at h
      have hxs : 0 < xs.sum := by linarith [not_lt.mp hx]
      obtain ⟨y, hy, hy0⟩ := exists_pos_of_sum_pos xs hxs
      exact ⟨y, List.mem_cons_of_mem x hy, hy0⟩

lemma clampQ_nonneg (x : ℚ) : 0 ≤ clampQ x := le_max_left 0 _

lemma clampQ_le (x : ℚ) : clampQ x ≤ 100 :=
  max_le (by norm_num) (min_le_left _ _)

lemma profileAdequacyScore_nonneg (d : ℚ) : 0 ≤ profileAdequacyScore d := by
  unfold profileAdequacyScore
  split_ifs
  · norm_num
  · norm_num
  · norm_num
  · norm_num
  · exact le_max_left 0 _

lemma profileAdequacyScore_le (d : ℚ) : profileAdequacyScore d ≤ 100 := by
  unfold profileAdequacyScore
  split_ifs with h1 h2 h3 h4
  · norm_num
  · norm_num
  · norm_num
  · norm_num
  · push_neg at h4
    exact max_le (by norm_num) (by linarith)

lemma diversificationScore_nonneg (h : ℚ) (s : ℕ) : 0 ≤ diversificationScore h s :=
  clampQ_nonneg _

lemma diversificationScore_le (h : ℚ) (s : ℕ) : diversificationScore h s ≤ 100 :=
  clampQ_le _

lemma macroExposureScore_nonneg (u t : ℚ) (lab : ProfileLabel) (a b : ℚ) :
    0 ≤ macroExposureScore u t lab a b := clampQ_nonneg _

lemma macroExposureScore_le (u t : ℚ) (lab : ProfileLabel) (a b : ℚ) :
    macroExposureScore u t lab a b ≤ 100 := clampQ_le _

lemma assetQualityScore_nonneg (wp wv : ℚ) : 0 ≤ assetQualityScore wp wv :=
  clampQ_nonneg _

lemma assetQualityScore_le (wp wv : ℚ) : assetQualityScore wp wv ≤ 100 :=
  clampQ_le _

lemma round_nonneg (x : ℚ) (hx : 0 ≤ x) : 0 ≤ round x := by
  rw [round_eq]
  exact Int.floor_nonneg.mpr (by linarith)

lemma round_le_hundred (x : ℚ) (hx : x ≤ 100) : round x ≤ 100 := by
  rw [round_eq]
  have h1 : ((⌊x + 1/2⌋ : ℤ) : ℚ) ≤ x + 1/2 := Int.floor_le _
  have h2 : ((⌊x + 1/2⌋ : ℤ) : ℚ) < 101 := lt_of_le_of_lt h1 (by linarith)
  have h3 : (⌊x + 1/2⌋ : ℤ) < 101 := by exact_mod_cast h2
  omega

lemma herfindahl_eq_sum (ps : List PortfolioPosition) (t : ℚ) :
    herfindahl ps t = (ps.map (fun p => (p.current_value / t) ^ 2)).sum := by
  have := foldl_add_eq (fun p : PortfolioPosition =>
    (p.current_value / t) * (p.current_value / t)) ps 0
  simpa [herfindahl, pow_two] using this

lemma positionWeights_sum (ps : List PortfolioPosition) (t : ℚ) (ht : t ≠ 0)
    (htot : t = valuesTotal ps) : (positionWeights ps t).sum = 1 := by
  have hmap : positionWeights ps t = (ps.map (·.current_value)).map (· / t) := by
    simp [positionWeights, List.map_map]
  rw [hmap, sum_map_div, ← valuesTotal, ← htot, div_self ht]

lemma foldlM_checked (t : ℚ) (ht : t ≠ 0) :
    ∀ (ps : List PortfolioPosition) (acc : ℚ),
      List.foldlM
        (fun sum p => (div? p.current_value t).map (fun share => sum + share * share))
        acc ps
        = some (ps.foldl
            (fun sum p => sum + (p.current_value / t) * (p.current_value / t)) acc)
  | [], acc => rfl
  | p :: ps, acc => by
    have hhead : (div? p.current_value t).map (fun share => acc + share * share)
        = some (acc + (p.current_value / t) * (p.current_value / t)) := by
      simp [div?, ht]
    rw [List.foldlM_cons, List.foldl_cons]
    simp only [hhead, Option.bind_eq_bind, Option.some_bind]
    exact foldlM_checked t ht ps _

lemma herfindahlChecked_eq (ps : List PortfolioPosition) (t : ℚ) (ht : t ≠ 0) :
    herfindahlChecked ps t = some (herfindahl ps t) := by
  simpa [herfindahlChecked, herfindahl] using foldlM_checked t ht ps 0

/-! ### Claim theorems -/

/-- Claim C10: generateSummary preserves totals under every grouping — the
values of byProvider, byAssetClass, byRegion and the time series each sum to
totalValue, which is the sum of all positions, and the time series is in
ascending date order. -/
theorem generateSummary_preserves_totals (positions : List ParsedPosition) :
    (generateSummary positions).totalValue = (positions.map (·.current_value)).sum ∧
    sumValues (generateSummary positions).byProvider = (generateSummary positions).totalValue ∧
    sumValues (generateSummary positions).byAssetClass = (generateSummary positions).totalValue ∧
    sumValues (generateSummary positions).byRegion = (generateSummary positions).totalValue ∧
    sumValues (generateSummary positions).timeSeriesData = (generateSummary positions).totalValue ∧
    List.Sorted dateLe (generateSummary positions).timeSeriesData := by
  have htot : (generateSummary positions).totalValue = (positions.map (·.current_value)).sum := by
    have := foldl_add_eq (fun p : ParsedPosition => p.current_value) positions 0
    simpa [generateSummary] using this
  refine ⟨htot, ?_, ?_, ?_, ?_, ?_⟩
  · rw [htot]
    simpa [generateSummary] using sumValues_aggregateBy (fun p => p.provider) positions
  · rw [htot]
    simpa [generateSummary] using sumValues_aggregateBy (fun p => p.asset_class) positions
  · rw [htot]
    simpa [generateSummary] using sumValues_aggregateBy (fun p => p.region) positions
  · rw [htot]
    have hperm := List.perm_insertionSort dateLe (aggregateBy (fun p => p.date) positions)
    have hsum : sumValues (List.insertionSort dateLe (aggregateBy (fun p => p.date) positions))
        = sumValues (aggregateBy (fun p => p.date) positions) := (hperm.map Prod.snd).sum_eq
    have := sumValues_aggregateBy (fun p => p.date) positions
    simp only [generateSummary]
    rw [hsum, this]
  · simp only [generateSummary]
    exact List.sorted_insertionSort dateLe (aggregateBy (fun p => p.date) positions)

/-- Claim C8: for every position list whose total value is positive, the
per-position weights value / totalValue sum to exactly 1 under exact
rational arithmetic. -/
theorem positionWeights_sum_one (ps : List PortfolioPosition) (t : ℚ)
    (htot : t = valuesTotal ps) (hpos : 0 < t) :
    (positionWeights ps t).sum = 1 :=
  positionWeights_sum ps t (ne_of_gt hpos) htot

/-- Witness for C8 at a concrete two-position portfolio. -/
theorem positionWeights_sum_one_witness :
    ((4 : ℚ) = valuesTotal [⟨1⟩, ⟨3⟩] ∧ (0 : ℚ) < 4) ∧
      (positionWeights [⟨1⟩, ⟨3⟩] 4).sum = 1 :=
  ⟨⟨by norm_num [valuesTotal], by norm_num⟩,
    positionWeights_sum_one [⟨1⟩, ⟨3⟩] 4 (by norm_num [valuesTotal]) (by norm_num)⟩

/-- Claim C3: for a portfolio with positive total value and non-negative
values, the herfindahl accumulator of calculateConcentration equals the sum
of squared weights, lies in the interval (0, 1], and is exactly 1 for any
single position of positive value. -/
theorem herfindahl_spec (ps : List PortfolioPosition) (t : ℚ)
    (htot : t = valuesTotal ps) (hpos : 0 < t)
    (hnn : ∀ p ∈ ps, 0 ≤ p.current_value) :
    herfindahl ps t = (ps.map (fun p => (p.current_value / t) ^ 2)).sum ∧
    0 < herfindahl ps t ∧ herfindahl ps t ≤ 1 ∧
    (∀ q : PortfolioPosition, 0 < q.current_value →
      herfindahl [q] (valuesTotal [q]) = 1) := by
  refine ⟨herfindahl_eq_sum ps t, ?_, ?_, ?_⟩
  · obtain ⟨v, hvmem, hv⟩ := exists_pos_of_sum_pos (ps.map (·.current_value))
      (by rw [← valuesTotal, ← htot]; exact hpos)
    obtain ⟨p, hp, rfl⟩ := List.mem_map.mp hvmem
    rw [herfindahl_eq_sum]
    have hmem : (p.current_value / t) ^ 2 ∈ ps.map (fun p => (p.current_value / t) ^ 2) :=
      List.mem_map_of_mem _ hp
    have hnnall : ∀ x ∈ ps.map (fun p => (p.current_value / t) ^ 2), 0 ≤ x := by
      intro x hx
      obtain ⟨q, _, rfl⟩ := List.mem_map.mp hx
      positivity
    have hposmem : 0 < (p.current_value / t) ^ 2 := pow_pos (div_pos hv hpos) 2
    exact lt_of_lt_of_le hposmem (List.single_le_sum hnnall _ hmem)
  · rw [herfindahl_eq_sum]
    have h1 : ps.map (fun p => (p.current_value / t) ^ 2)
        = (positionWeights ps t).map (fun x => x * x) := by
      simp [positionWeights, List.map_map, pow_two]
    have hwnn : ∀ x ∈ positionWeights ps t, 0 ≤ x := by
      intro x hx
      obtain ⟨q, hq, rfl⟩ := List.mem_map.mp hx
      exact div_nonneg (hnn q hq) (le_of_lt hpos)
    have h2 := sum_sq_le_sq_sum (positionWeights ps t) hwnn
    rw [positionWeights_sum ps t (ne_of_gt hpos) htot] at h2
    rw [h1]
    simpa using h2
  · intro q hq
    have hv : q.current_value ≠ 0 := ne_of_gt hq
    simp [herfindahl, valuesTotal, div_self hv]

/-- Witness for C3 at a concrete equal-weight two-position portfolio. -/
theorem herfindahl_spec_witness :
    ((2 : ℚ) = valuesTotal [⟨1⟩, ⟨1⟩] ∧ (0 : ℚ) < 2 ∧
      (∀ p ∈ ([⟨1⟩, ⟨1⟩] : List PortfolioPosition), 0 ≤ p.current_value)) ∧
      (herfindahl [⟨1⟩, ⟨1⟩] 2
          = (([⟨1⟩, ⟨1⟩] : List PortfolioPosition).map (fun p => (p.current_value / 2) ^ 2)).sum ∧
        0 < herfindahl [⟨1⟩, ⟨1⟩] 2 ∧ herfindahl [⟨1⟩, ⟨1⟩] 2 ≤ 1 ∧
        (∀ q : PortfolioPosition, 0 < q.current_value →
          herfindahl [q] (valuesTotal [q]) = 1)) :=
  ⟨⟨by norm_num [valuesTotal], by norm_num, by decide⟩,
    herfindahl_spec [⟨1⟩, ⟨1⟩] 2 (by norm_num [valuesTotal]) (by norm_num) (by decide)⟩

/-- Claim C4 counterexample: on the empty portfolio (totalValue 0) the
divisions of AllocationAnalysis are not guarded — avgPositionSize divides
totalValue by the zero position count, so the checked computation reports a
division by zero. -/
theorem allocationMetrics_div_by_zero :
    valuesTotal ([] : List PortfolioPosition) = 0 ∧
    allocationMetricsChecked ([] : List PortfolioPosition) 0 = none := by
  exact ⟨rfl, rfl⟩

/-- Claim C4 amended: with nonzero totalValue and a nonempty position list
no division in the AllocationAnalysis metric block divides by zero, and a
position of value zero contributes zero weight to the Herfindahl
accumulator; the unguarded divisions fail only on the degenerate inputs of
the counterexample. -/
theorem allocationMetrics_guarded (ps : List PortfolioPosition) (t : ℚ)
    (ht : t ≠ 0) (hne : ps ≠ []) :
    (allocationMetricsChecked ps t).isSome = true ∧
    (∀ p : PortfolioPosition, p.current_value = 0 →
      herfindahl (p :: ps) t = herfindahl ps t) := by
  constructor
  · cases ps with
    | nil => exact absurd rfl hne
    | cons p ps2 =>
      have hlen : ((ps2.length : ℚ) + 1) ≠ 0 := by positivity
      simp [allocationMetricsChecked, herfindahlChecked_eq _ _ ht, div?, ht, hlen, maxValue?]
  · intro p hp
    simp [herfindahl, hp]

/-- Witness for the amended C4 at a portfolio holding one zero position. -/
theorem allocationMetrics_guarded_witness :
    ((5 : ℚ) ≠ 0 ∧ ([⟨0⟩, ⟨5⟩] : List PortfolioPosition) ≠ []) ∧
      ((allocationMetricsChecked [⟨0⟩, ⟨5⟩] 5).isSome = true ∧
        (∀ p : PortfolioPosition, p.current_value = 0 →
          herfindahl (p :: [⟨0⟩, ⟨5⟩]) 5 = herfindahl [⟨0⟩, ⟨5⟩] 5)) :=
  ⟨⟨by norm_num, by simp⟩,
    allocationMetrics_guarded [⟨0⟩, ⟨5⟩] 5 (by norm_num) (by simp)⟩

/-- Claim C5 counterexample: PortfolioAlerts does not sort by severity — it
keeps the engine order, filters to red and orange, and takes the first
three, so a red alert listed after three orange alerts is dropped while the
orange ones are shown. -/
theorem importantAlerts_drops_red :
    let redA : Alert :=
      { code := "R", severity := AlertSeverity.red, message := "m", recommendation := none }
    let alerts : List Alert :=
      [{ code := "O1", severity := AlertSeverity.orange, message := "m", recommendation := none },
       { code := "O2", severity := AlertSeverity.orange, message := "m", recommendation := none },
       { code := "O3", severity := AlertSeverity.orange, message := "m", recommendation := none },
       redA]
    redA ∈ alerts ∧ redA ∉ importantAlerts alerts ∧
      (∀ a ∈ importantAlerts alerts, a.severity = AlertSeverity.orange) := by
  decide

/-- Claim C5 amended: the display shows at most the first three alerts of
severity red or orange, preserved in engine order as a sublist of the full
list, and never shows a green alert; no severity sorting is applied, so
which alerts appear depends on engine order alone. -/
theorem importantAlerts_spec (alerts : List Alert) :
    (importantAlerts alerts).Sublist alerts ∧
    (importantAlerts alerts).length ≤ 3 ∧
    ∀ a ∈ importantAlerts alerts,
      a.severity = AlertSeverity.red ∨ a.severity = AlertSeverity.orange := by
  refine ⟨?_, ?_, ?_⟩
  · exact (List.take_sublist _ _).trans (List.filter_sublist _)
  · simp only [importantAlerts]
    exact List.length_take_le 3 _
  · intro a ha
    have h1 : a ∈ alerts.filter
        (fun a => a.severity == AlertSeverity.red || a.severity == AlertSeverity.orange) :=
      List.mem_of_mem_take ha
    have h2 := List.of_mem_filter h1
    simpa using h2

/-- Claim C6 counterexample: the parsePortfolioCSV row loop validates only
that current_value parses to a number — a row with value -100 is accepted
with no validation failure, flows into the parsed positions unmodified, and
the summary is generated from it. -/
theorem parsePortfolioCSV_accepts_negative :
    let negRow : RawRow :=
      { date := "2024-01-01", provider := "BNP", asset_class := "Action",
        instrument_name := "X", isin := none, region := "Europe",
        currency := "EUR", current_value := some (-100) }
    processRows 0 [negRow] = ([toParsedPosition negRow (-100)], []) ∧
    (toParsedPosition negRow (-100)).current_value < 0 ∧
    parsePortfolioRows [negRow] =
      ParseOutcome.success [toParsedPosition negRow (-100)]
        (generateSummary [toParsedPosition negRow (-100)]) [] := by
  exact ⟨rfl, by norm_num [toParsedPosition], rfl⟩

/-- Claim C6 amended: a row is rejected, with a ParseError naming the
current_value field, exactly when its current_value fails numeric parsing;
every row with a parsed numeric value, negative included, is accepted
unmodified — never clamped — and proceeds to aggregation. -/
theorem processRows_spec (i : ℕ) (rows : List RawRow) :
    (processRows i rows).1 =
      rows.filterMap (fun r => r.current_value.map (toParsedPosition r)) ∧
    (∀ e ∈ (processRows i rows).2, e.field = "current_value") := by
  induction rows generalizing i with
  | nil => simp [processRows]
  | cons r rs ih =>
    obtain ⟨ih1, ih2⟩ := ih (i + 1)
    cases hr : r.current_value with
    | none =>
      refine ⟨by simp [processRows, hr, ih1], ?_⟩
      intro e he
      simp only [processRows, hr, List.mem_cons] at he
      rcases he with he | he
      · rw [he]
      · exact ih2 e he
    | some v =>
      refine ⟨by simp [processRows, hr, ih1], ?_⟩
      intro e he
      simp only [processRows, hr] at he
      exact ih2 e he

/-- Claim C7 counterexample: the diversification metric of
AllocationAnalysis is a function of the position count alone — a
21-position equal-weight portfolio has Herfindahl index 1/21, well inside
the near-zero band, yet scores 85 rather than approaching 100, and a
single-position portfolio has Herfindahl index 1 yet scores 50 rather than
0. -/
theorem diversificationMetric_ignores_hhi :
    let flat : List PortfolioPosition :=
      [⟨1⟩, ⟨1⟩, ⟨1⟩, ⟨1⟩, ⟨1⟩, ⟨1⟩, ⟨1⟩, ⟨1⟩, ⟨1⟩, ⟨1⟩, ⟨1⟩,
       ⟨1⟩, ⟨1⟩, ⟨1⟩, ⟨1⟩, ⟨1⟩, ⟨1⟩, ⟨1⟩, ⟨1⟩, ⟨1⟩, ⟨1⟩]
    valuesTotal flat = 21 ∧ herfindahl flat 21 = 1/21 ∧ (1/21 : ℚ) < 1/10 ∧
      diversificationMetric flat = 85 ∧
      valuesTotal [⟨1⟩] = 1 ∧ herfindahl [⟨1⟩] 1 = 1 ∧
      diversificationMetric [⟨1⟩] = 50 := by
  refine ⟨by norm_num [valuesTotal], by norm_num [herfindahl], by norm_num,
    by decide, by norm_num [valuesTotal], by norm_num [herfindahl], by decide⟩

/-- Claim C7 amended: the displayed diversification metric depends only on
the number of positions, so changing the Herfindahl index at a fixed
position count leaves it unchanged — in particular it is non-increasing in
the index — and its value always lies between 50 and 85, never reaching 100
near index 0 nor 0 near index 1. -/
theorem diversificationMetric_spec (ps1 ps2 : List PortfolioPosition)
    (hlen : ps1.length = ps2.length) :
    diversificationMetric ps1 = diversificationMetric ps2 ∧
    50 ≤ diversificationMetric ps1 ∧ diversificationMetric ps1 ≤ 85 := by
  refine ⟨by simp [diversificationMetric, hlen], ?_, ?_⟩ <;>
  · unfold diversificationMetric
    split_ifs <;> norm_num

/-- Witness for the amended C7 at two equal-length portfolios of different
concentration. -/
theorem diversificationMetric_spec_witness :
    ([⟨1⟩, ⟨1⟩] : List PortfolioPosition).length = ([⟨3⟩, ⟨1⟩] : List PortfolioPosition).length ∧
      (diversificationMetric [⟨1⟩, ⟨1⟩] = diversificationMetric [⟨3⟩, ⟨1⟩] ∧
        50 ≤ diversificationMetric [⟨1⟩, ⟨1⟩] ∧ diversificationMetric [⟨1⟩, ⟨1⟩] ≤ 85) :=
  ⟨rfl, diversificationMetric_spec [⟨1⟩, ⟨1⟩] [⟨3⟩, ⟨1⟩] rfl⟩

/-- Claim C1: when the total value is zero computeScore short-circuits to
the degenerate result — global score 0, four sub-scores all 0,
concentrationTop5 0, and exactly the single informational empty-portfolio
alert; the function is total, so no exception path exists. -/
theorem computeScore_empty (positions : List Position) (profile : InvestorProfile)
    (htot : totalValueOf positions = 0) :
    (computeScore positions profile).globalScore = 0 ∧
    (computeScore positions profile).subScores.length = 4 ∧
    (∀ s ∈ (computeScore positions profile).subScores, s.value = 0) ∧
    (computeScore positions profile).concentrationTop5 = 0 ∧
    (computeScore positions profile).alerts = [emptyPortfolioAlert] := by
  simp [computeScore, htot]

/-- Witness for C1 at the empty portfolio. -/
theorem computeScore_empty_witness :
    totalValueOf ([] : List Position) = 0 ∧
      ((computeScore [] { label := ProfileLabel.balanced, targetEquityPct := 60 }).globalScore = 0 ∧
        (computeScore [] { label := ProfileLabel.balanced, targetEquityPct := 60 }).subScores.length = 4 ∧
        (∀ s ∈ (computeScore [] { label := ProfileLabel.balanced, targetEquityPct := 60 }).subScores,
          s.value = 0) ∧
        (computeScore [] { label := ProfileLabel.balanced, targetEquityPct := 60 }).concentrationTop5 = 0 ∧
        (computeScore [] { label := ProfileLabel.balanced, targetEquityPct := 60 }).alerts
          = [emptyPortfolioAlert]) :=
  ⟨rfl, computeScore_empty [] { label := ProfileLabel.balanced, targetEquityPct := 60 } rfl⟩

lemma global_round_bounds (d pa mx aq : ℚ)
    (hd0 : 0 ≤ d) (hd1 : d ≤ 100) (hp0 : 0 ≤ pa) (hp1 : pa ≤ 100)
    (hm0 : 0 ≤ mx) (hm1 : mx ≤ 100) (hq0 : 0 ≤ aq) (hq1 : aq ≤ 100) :
    0 ≤ round ((1/4 : ℚ) * d + (3/10) * pa + (1/5) * mx + (1/4) * aq) ∧
      round ((1/4 : ℚ) * d + (3/10) * pa + (1/5) * mx + (1/4) * aq) ≤ 100 :=
  ⟨round_nonneg _ (by linarith), round_le_hundred _ (by linarith)⟩

/-- Claim C2: for valid inputs — non-negative position values and a target
equity percentage within 0 to 100 — computeScore yields an integer global
score within 0 to 100 and exactly four sub-scores, each within 0 to 100. -/
theorem computeScore_bounds (positions : List Position) (profile : InvestorProfile)
    (_hval : ∀ p ∈ positions, 0 ≤ p.value)
    (_htgt0 : 0 ≤ profile.targetEquityPct) (_htgt1 : profile.targetEquityPct ≤ 100) :
    0 ≤ (computeScore positions profile).globalScore ∧
    (computeScore positions profile).globalScore ≤ 100 ∧
    (computeScore positions profile).subScores.length = 4 ∧
    ∀ s ∈ (computeScore positions profile).subScores, 0 ≤ s.value ∧ s.value ≤ 100 := by
  by_cases htot : totalValueOf positions = 0
  · refine ⟨?_, ?_, ?_, ?_⟩ <;> simp [computeScore, htot]
  · have hb := global_round_bounds
      (diversificationScore (herfindahlIndex positions (totalValueOf positions)) (sectorCounts positions))
      (profileAdequacyScore
        |equityWeight positions (totalValueOf positions) * 100 - profile.targetEquityPct|)
      (macroExposureScore (currencyShare positions (totalValueOf positions) "USD" * 100)
        (sectorShare positions (totalValueOf positions) "Technology" * 100) profile.label
        (equityWeight positions (totalValueOf positions) * 100) profile.targetEquityPct)
      (assetQualityScore (weightedPerf positions (totalValueOf positions))
        (weightedVol positions (totalValueOf positions)))
      (diversificationScore_nonneg _ _) (diversificationScore_le _ _)
      (profileAdequacyScore_nonneg _) (profileAdequacyScore_le _)
      (macroExposureScore_nonneg _ _ _ _ _) (macroExposureScore_le _ _ _ _ _)
      (assetQualityScore_nonneg _ _) (assetQualityScore_le _ _)
    refine ⟨?_, ?_, ?_, ?_⟩
    · simp only [computeScore, if_neg htot]
      exact hb.1
    · simp only [computeScore, if_neg htot]
      exact hb.2
    · simp [computeScore, htot]
    · intro s hs
      simp only [computeScore, if_neg htot, List.mem_cons, List.not_mem_nil, or_false] at hs
      rcases hs with rfl | rfl | rfl | rfl
      · exact ⟨diversificationScore_nonneg _ _, diversificationScore_le _ _⟩
      · exact ⟨profileAdequacyScore_nonneg _, profileAdequacyScore_le _⟩
      · exact ⟨macroExposureScore_nonneg _ _ _ _ _, macroExposureScore_le _ _ _ _ _⟩
      · exact ⟨assetQualityScore_nonneg _ _, assetQualityScore_le _ _⟩

/-- Witness for C2 at a concrete valid two-position portfolio. -/
theorem computeScore_bounds_witness :
    let ps : List Position :=
      [⟨50, "equity", "USA", some "Technology", some "USD", some 10, some 20⟩,
       ⟨50, "bond", "Europe", none, none, none, none⟩]
    let profile : InvestorProfile := ⟨ProfileLabel.balanced, 60⟩
    ((∀ p ∈ ps, 0 ≤ p.value) ∧
      (0 : ℚ) ≤ profile.targetEquityPct ∧ profile.targetEquityPct ≤ 100) ∧
      (0 ≤ (computeScore ps profile).globalScore ∧
        (computeScore ps profile).globalScore ≤ 100 ∧
        (computeScore ps profile).subScores.length = 4 ∧
        ∀ s ∈ (computeScore ps profile).subScores, 0 ≤ s.value ∧ s.value ≤ 100) := by
  intro ps profile
  exact ⟨⟨by decide, by decide, by decide⟩,
    computeScore_bounds ps profile (by decide) (by decide) (by decide)⟩

/-- Claim C9: computeScore is a pure function of its two inputs — identical
positions and profile yield identical results; the shallow embedding takes
no state, call history or environment, so no hidden dependence exists. -/
theorem computeScore_deterministic (ps1 ps2 : List Position)
    (pr1 pr2 : InvestorProfile) (hps : ps1 = ps2) (hpr : pr1 = pr2) :
    computeScore ps1 pr1 = computeScore ps2 pr2 := by
  rw [hps, hpr]

/-- Witness for C9 at a concrete repeated invocation. -/
theorem computeScore_deterministic_witness :
    (([] : List Position) = [] ∧
        ({ label := ProfileLabel.cautious, targetEquityPct := 20 } : InvestorProfile)
          = { label := ProfileLabel.cautious, targetEquityPct := 20 }) ∧
      computeScore [] { label := ProfileLabel.cautious, targetEquityPct := 20 }
        = computeScore [] { label := ProfileLabel.cautious, targetEquityPct := 20 } :=
  ⟨⟨rfl, rfl⟩, computeScore_deterministic [] [] _ _ rfl rfl⟩

end OneWealth
